import Mathlib

/-!
Verification development for the `summer` HTTP application core.

The embedding translates, into Lean:
  * the request-normalization utilities (`flattenSlice`, `flattenRequest`);
  * the health registry (`executeCheckers`, app.go);
  * the readiness-cascade tracker and the liveness/readiness handlers (app.go);
  * the admission controller (the permit-pool channel of app.go) as a
    transition system;
  * the per-request dispatch of `HandleFunc`/`ServeHTTP` (app.go) as event
    traces, with Go `defer` semantics made explicit.

Go maps are embedded as association lists updated in place (`setKV`), and the
in-place mutation of the target map of `flattenRequest` is embedded as explicit
state passing: the function returns the final map together with the optional
error, exactly as the Go code leaves the caller's map mutated when it fails.
-/

namespace Summer

/-- Multi-value flattening result: either a bare scalar (singleton input) or
the full ordered sequence, mirroring the dynamically-typed `any` return of the
Go generic `flattenSlice`. -/
inductive Flat (α : Type) where
  | one (a : α)
  | many (l : List α)
  deriving DecidableEq, Repr

/-- Modelled from the spec: `flattenSlice` lives in a repository file absent
from the sources (only `utils_test.go` remains); per spec §4.1 it returns the
single element when the sequence has exactly one element, else the full
ordered sequence, matching the vectors of `TestFlattenSlice`. -/
def flattenSlice {α : Type} : List α → Flat α
  | [a] => Flat.one a
  | l => Flat.many l

/-- Values stored in a flattened request map: a bare string or a string
sequence (the two shapes the flattening of query, header and form fields can
produce). -/
inductive Value where
  | str (s : String)
  | seq (l : List String)
  deriving DecidableEq, Repr

/-- `flattenSlice` specialized to lists of strings, injected into `Value`. -/
def flattenValue (l : List String) : Value :=
  match flattenSlice l with
  | Flat.one a => Value.str a
  | Flat.many t => Value.seq t

/-- A Go `map[string]any` restricted to the value shapes above, embedded as an
association list with at most one binding per key. -/
abbrev FlatMap := List (String × Value)

/-- Go map assignment `m[k] = v`: overwrite the existing binding in place, or
append a fresh one. -/
def setKV : FlatMap → String → Value → FlatMap
  | [], k, v => [(k, v)]
  | (k0, v0) :: t, k, v => if k0 = k then (k, v) :: t else (k0, v0) :: setKV t k v

/-- Go map read `m[k]`. -/
def lookupKV : FlatMap → String → Option Value
  | [], _ => none
  | (k0, v0) :: t, k => if k0 = k then some v0 else lookupKV t k

/-- Prefix test on strings, by character list. -/
def isPfxOf : List Char → List Char → Bool
  | [], _ => true
  | _ :: _, [] => false
  | a :: as, b :: bs => a == b && isPfxOf as bs

/-- `strings.HasPrefix s pat`. -/
def strStarts (s pat : String) : Bool := isPfxOf pat.data s.data

/-- Header-name canonicalization of the normalizer: lower-case the name and
turn `-` into `_` (per-character, which agrees with lowering first and then
replacing dashes since lowering fixes `-`). -/
def canonHeaderKey (s : String) : String :=
  String.mk (s.data.map (fun c => if c = '-' then '_' else c.toLower))

/-- MIME dispatch key of a `Content-Type` value: everything before the first
`;` (parameters are ignored for dispatch, spec §4.1 step 3). -/
def mimeType (ct : String) : String :=
  String.mk (ct.data.takeWhile (fun c => c != ';'))

/-- `req.Header.Get k`: first value of the header named `k`, or `""`. -/
def getHeader (hs : List (String × List String)) (k : String) : String :=
  match hs.find? (fun p => p.1 == k) with
  | some (_, v :: _) => v
  | _ => ""

/-- An HTTP request as the normalizer consumes it: query parameters and
headers as multi-valued association lists, the body as the byte string read
from `req.Body` (empty string = absent or empty body). -/
structure Request where
  method : String
  path : String
  query : List (String × List String)
  headers : List (String × List String)
  body : String

/-- Errors of `flattenRequest`: the unsupported-content-type failure of spec
§7, plus body-decoding failures surfaced by the external decoders. -/
inductive FlattenError where
  | unsupportedContentType (ct : String)
  | parseFailure (msg : String)
  deriving DecidableEq, Repr

/-- Step 1 of `flattenRequest`. Modelled from the spec and the in-repo test
vectors: `TestFlattenRequest` (utils_test.go) requires each query parameter
under BOTH its bare key and its `query_`-prefixed key (the GET case expects
`aaa` and `query_aaa`), so the model inserts both, overriding spec §4.1 step 1
which lists only the prefixed key. -/
def insertQueryParams (m : FlatMap) (q : List (String × List String)) : FlatMap :=
  q.foldl
    (fun m kv =>
      setKV (setKV m kv.1 (flattenValue kv.2)) ("query_" ++ kv.1) (flattenValue kv.2))
    m

/-- Step 2 of `flattenRequest`: every header inserted under its
`header_`-prefixed canonical key (spec §4.1 step 2). -/
def insertHeaders (m : FlatMap) (hs : List (String × List String)) : FlatMap :=
  hs.foldl (fun m kv => setKV m ("header_" ++ canonHeaderKey kv.1) (flattenValue kv.2)) m

/-- Modelled from the spec: `flattenRequest` lives in a repository file absent
from the sources (only `utils_test.go` remains). Per spec §4.1 and the test
vectors: query parameters first (bare and `query_` keys, see
`insertQueryParams`), then `header_` keys, then body dispatch on the MIME type
of `Content-Type` — JSON object fields, form fields, the whole body under
`text` for `text/*`, an `unsupportedContentType` failure otherwise when a body
is present, and no body step at all for an empty body. The external JSON and
form decoders (Go stdlib) are parameters. The returned map is the state of the
caller's map after the in-place mutation, also on failure. -/
def flattenRequest (m : FlatMap) (req : Request)
    (parseJsonObj : String → Except String (List (String × Value)))
    (parseForm : String → Except String (List (String × List String))) :
    FlatMap × Option FlattenError :=
  let m1 := insertQueryParams m req.query
  let m2 := insertHeaders m1 req.headers
  if req.body = "" then (m2, none)
  else
    let ct := mimeType (getHeader req.headers "Content-Type")
    if ct = "application/json" then
      match parseJsonObj req.body with
      | Except.ok fields => (fields.foldl (fun m kv => setKV m kv.1 kv.2) m2, none)
      | Except.error e => (m2, some (FlattenError.parseFailure e))
    else if ct = "application/x-www-form-urlencoded" then
      match parseForm req.body with
      | Except.ok fields => (fields.foldl (fun m kv => setKV m kv.1 (flattenValue kv.2)) m2, none)
      | Except.error e => (m2, some (FlattenError.parseFailure e))
    else if strStarts ct "text/" then
      (setKV m2 "text" (Value.str req.body), none)
    else
      (m2, some (FlattenError.unsupportedContentType ct))

/-- The request of the first `TestFlattenRequest` vector:
`GET https://example.com/get?aaa=bbb`, no headers, empty body. -/
def getReq : Request :=
  { method := "GET", path := "/get", query := [("aaa", ["bbb"])], headers := [], body := "" }

/-- The request of the last `TestFlattenRequest` vector:
`POST https://example.com/post?aaa=bbb` with `Content-Type: application/x-custom`
and body `hello=world`. -/
def postCustomReq : Request :=
  { method := "POST", path := "/post", query := [("aaa", ["bbb"])],
    headers := [("Content-Type", ["application/x-custom"])], body := "hello=world" }

/-- A stand-in external JSON decoder that always fails (the claims below never
reach the JSON branch). -/
def noJson : String → Except String (List (String × Value)) := fun _ => Except.error "unused"

/-- A stand-in external form decoder that always fails. -/
def noForm : String → Except String (List (String × List String)) := fun _ => Except.error "unused"

/-! ## Health registry (`executeCheckers`, app.go) -/

/-- A registered checker at evaluation time: its name paired with the outcome
of calling it (`none` = nil error, `some e` = the error's text). The Go
registry is a map iterated in unspecified order; a list stands for one such
iteration order. -/
abbrev CheckerRun := String × Option String

/-- The report line one checker contributes: `name: OK` or `name: <error>`. -/
def lineOf (kv : CheckerRun) : String :=
  kv.1 ++ ": " ++ (match kv.2 with | none => "OK" | some e => e)

/-- One iteration of the `executeCheckers` loop (app.go:57-69) over the
accumulated builder string and the `failed` flag: a `"\n"` separator when the
builder is non-empty, then `name: `, then `OK` or the error text (the latter
setting `failed`). -/
def checkerStep (acc : String × Bool) (kv : CheckerRun) : String × Bool :=
  let s := if acc.1.length > 0 then acc.1 ++ "\n" else acc.1
  let s := s ++ kv.1 ++ ": "
  match kv.2 with
  | none => (s ++ "OK", acc.2)
  | some e => (s ++ e, true)

/-- `executeCheckers` (app.go:55-75): fold the loop over the registry starting
from an empty builder and `failed = false`, then fall back to `"OK"` when the
report is empty. Checker errors are recorded in the report and the flag only;
the function has no error result of its own. -/
def executeCheckers (cs : List CheckerRun) : String × Bool :=
  let p := cs.foldl checkerStep ("", false)
  (if p.1 = "" then "OK" else p.1, p.2)

/-- The `"\n"`-join of a list of lines, as the spec describes the report. -/
def joinLines : List String → String
  | [] => ""
  | [a] => a
  | a :: b :: t => a ++ "\n" ++ joinLines (b :: t)

/-- Continuation form of the join: each remaining line preceded by `"\n"`. -/
def joinCont : List CheckerRun → String
  | [] => ""
  | kv :: t => "\n" ++ lineOf kv ++ joinCont t

theorem strData_append (s t : String) : (s ++ t).data = s.data ++ t.data := rfl

theorem strExt {s t : String} (h : s.data = t.data) : s = t := by
  cases s; cases t; exact congrArg String.mk h

theorem strLen_data (s : String) : s.length = s.data.length := rfl

theorem strAppend_assoc (s t u : String) : s ++ t ++ u = s ++ (t ++ u) :=
  strExt (by simp [strData_append])

theorem strAppend_empty (s : String) : s ++ "" = s :=
  strExt (by simp [strData_append])

theorem strEmpty_append (s : String) : "" ++ s = s :=
  strExt (by simp [strData_append])

theorem strLen_append (s t : String) : (s ++ t).length = s.length + t.length := by
  rw [strLen_data, strLen_data, strLen_data, strData_append, List.length_append]

theorem strNe_empty_of_len_pos {s : String} (h : 0 < s.length) : s ≠ "" := by
  intro hs
  rw [hs] at h
  simp [strLen_data] at h

theorem lineOf_len_pos (kv : CheckerRun) : 0 < (lineOf kv).length := by
  cases kv with
  | mk k o =>
    have h2 : (": " : String).length = 2 := rfl
    cases o with
    | none =>
      show 0 < (k ++ ": " ++ "OK").length
      rw [strLen_append, strLen_append, h2]
      omega
    | some e =>
      show 0 < (k ++ ": " ++ e).length
      rw [strLen_append, strLen_append, h2]
      omega

theorem checkerStep_of_pos (s : String) (f : Bool) (kv : CheckerRun)
    (h : 0 < s.length) :
    checkerStep (s, f) kv = (s ++ ("\n" ++ lineOf kv), f || kv.2.isSome) := by
  cases kv with
  | mk k o =>
    cases o with
    | none =>
      simp only [checkerStep, lineOf, if_pos h, Bool.or_false, Option.isSome_none]
      simp only [strAppend_assoc]
    | some e =>
      simp only [checkerStep, lineOf, if_pos h, Bool.or_true, Option.isSome_some]
      simp only [strAppend_assoc]

theorem foldl_checkerStep (cs : List CheckerRun) :
    ∀ (s : String) (f : Bool), 0 < s.length →
      cs.foldl checkerStep (s, f) =
        (s ++ joinCont cs, f || cs.any (fun kv => kv.2.isSome)) := by
  induction cs with
  | nil =>
    intro s f _
    simp [joinCont, strAppend_empty]
  | cons kv t ih =>
    intro s f h
    have hstep := checkerStep_of_pos s f kv h
    have hpos : 0 < (s ++ ("\n" ++ lineOf kv)).length := by
      simp only [strLen_data, strData_append, List.length_append]
      have := h
      simp only [strLen_data] at this
      omega
    calc (kv :: t).foldl checkerStep (s, f)
        = t.foldl checkerStep (checkerStep (s, f) kv) := rfl
      _ = t.foldl checkerStep (s ++ ("\n" ++ lineOf kv), f || kv.2.isSome) := by rw [hstep]
      _ = (s ++ ("\n" ++ lineOf kv) ++ joinCont t,
            (f || kv.2.isSome) || t.any (fun kv => kv.2.isSome)) := ih _ _ hpos
      _ = (s ++ joinCont (kv :: t), f || (kv :: t).any (fun kv => kv.2.isSome)) := by
            simp [joinCont, strAppend_assoc, Bool.or_assoc]

theorem checkerStep_empty (kv : CheckerRun) :
    checkerStep ("", false) kv = (lineOf kv, kv.2.isSome) := by
  cases kv with
  | mk k o =>
    cases o <;> simp [checkerStep, lineOf, strLen_data, strEmpty_append]

theorem joinLines_map_cons (kv : CheckerRun) (t : List CheckerRun) :
    joinLines (lineOf kv :: t.map lineOf) = lineOf kv ++ joinCont t := by
  induction t generalizing kv with
  | nil => simp [joinLines, joinCont, strAppend_empty]
  | cons b t2 ih =>
    calc joinLines (lineOf kv :: lineOf b :: t2.map lineOf)
        = lineOf kv ++ "\n" ++ joinLines (lineOf b :: t2.map lineOf) := rfl
      _ = lineOf kv ++ "\n" ++ (lineOf b ++ joinCont t2) := by rw [ih]
      _ = lineOf kv ++ joinCont (b :: t2) := by
            simp [joinCont, strAppend_assoc]

theorem executeCheckers_eq (cs : List CheckerRun) :
    executeCheckers cs =
      (if cs.isEmpty then "OK" else joinLines (cs.map lineOf),
       cs.any (fun kv => kv.2.isSome)) := by
  cases cs with
  | nil => simp [executeCheckers]
  | cons kv t =>
    have h1 : (kv :: t).foldl checkerStep ("", false) =
        (lineOf kv ++ joinCont t, kv.2.isSome || t.any (fun kv => kv.2.isSome)) := by
      calc (kv :: t).foldl checkerStep ("", false)
          = t.foldl checkerStep (checkerStep ("", false) kv) := rfl
        _ = t.foldl checkerStep (lineOf kv, kv.2.isSome) := by rw [checkerStep_empty]
        _ = (lineOf kv ++ joinCont t, kv.2.isSome || t.any (fun kv => kv.2.isSome)) :=
            foldl_checkerStep t _ _ (lineOf_len_pos kv)
    have hpos : 0 < (lineOf kv ++ joinCont t).length := by
      have := lineOf_len_pos kv
      simp only [strLen_data, strData_append, List.length_append] at *
      omega
    have hne : lineOf kv ++ joinCont t ≠ "" := strNe_empty_of_len_pos hpos
    simp [executeCheckers, h1, hne, joinLines_map_cons]

/-! ## Readiness cascade tracker and diagnostics handlers (app.go) -/

/-- Counter update of one readiness evaluation (app.go:109-114): a failed
report increments `readinessFailed` by 1, a successful one stores 0. The
`int64` counter is modelled as `Int`. -/
def stepReadiness (c : Int) (failed : Bool) : Int := if failed then c + 1 else 0

/-- Counter after a sequence of readiness evaluations from process start
(the counter starts at 0). -/
def runReadiness (outs : List Bool) : Int := outs.foldl stepReadiness 0

/-- Response of the liveness handler (app.go:99-105): status 500 with body
`CASCADED` when `readinessCascade > 0` and the counter exceeds it, else
status 200 with body `OK`. -/
def livenessBody (cascade c : Int) : Nat × String :=
  if cascade > 0 ∧ c > cascade then (500, "CASCADED") else (200, "OK")

/-- The liveness handler as a state transformer: it only loads the counter
(`atomic.LoadInt64`), so the returned state is the counter it was given,
paired with the response. -/
def handleAlive (cascade c : Int) : Int × Nat × String := (c, livenessBody cascade c)

/-- The readiness handler (app.go:106-116) as a state transformer: run the
checkers, update the counter, respond 200/500 with the report as body. -/
def handleReady (cs : List CheckerRun) (c : Int) : Int × Nat × String :=
  let p := executeCheckers cs
  (stepReadiness c p.2, if p.2 then 500 else 200, p.1)

/-- The number of consecutive failures at the end of an outcome sequence. -/
def trailingFailures (outs : List Bool) : Nat :=
  (outs.reverse.takeWhile (fun b => b)).length

/-- A probe hitting the diagnostics endpoints that touch the counter's state:
a liveness probe, or a readiness probe with the checker outcomes it sees. -/
inductive Probe where
  | alive
  | ready (cs : List CheckerRun)

/-- Whether a probe is a readiness probe. -/
def isReady : Probe → Bool
  | Probe.alive => false
  | Probe.ready _ => true

/-- Counter transition of one probe. -/
def probeStep (cascade c : Int) : Probe → Int
  | Probe.alive => (handleAlive cascade c).1
  | Probe.ready cs => (handleReady cs c).1

/-- Counter after a sequence of probes. -/
def runProbes (cascade c : Int) (ps : List Probe) : Int :=
  ps.foldl (probeStep cascade) c

/-! ## Options and construction (`New`, app.go) -/

/-- The recognized construction options (options struct of the repository). -/
structure AppOptions where
  concurrency : Int
  readinessCascade : Int
  deriving DecidableEq, Repr

/-- The defaults `New` starts from before applying the option functions
(app.go:160-163): concurrency 128, readinessCascade 5. -/
def defaultOptions : AppOptions := { concurrency := 128, readinessCascade := 5 }

/-- `New` (app.go:156-169), restricted to the option processing: each option
function mutates the options struct in order, starting from the defaults. -/
def newOptions (opts : List (AppOptions → AppOptions)) : AppOptions :=
  opts.foldl (fun o f => f o) defaultOptions

/-- Pool allocation during setup (app.go:130-135): a channel of capacity
`concurrency`, pre-filled with that many tokens, is allocated only when
`concurrency > 0`; otherwise `a.cc` stays nil (`none`). -/
def initCC (o : AppOptions) : Option Nat :=
  if o.concurrency > 0 then some o.concurrency.toNat else none

/-! ## Admission controller (the permit-pool channel, app.go) -/

/-- Pool occupancy: tokens sitting in the channel (`available`) and tokens
taken by in-flight gated handlers (`held`). -/
structure PoolState where
  available : Nat
  held : Nat
  deriving DecidableEq, Repr

/-- The two pool transitions of `ServeHTTP` (app.go:145-150): `acquire`
receives a token from the channel (blocking unless one is available), `held`
goes up; the deferred `release` sends the token back when a gated handler
exits. Only a goroutine holding a token releases, so `release` requires
`held > 0`. -/
inductive PoolStep : PoolState → PoolState → Prop where
  | acquire (a h : Nat) : PoolStep ⟨a + 1, h⟩ ⟨a, h + 1⟩
  | release (a h : Nat) : PoolStep ⟨a, h + 1⟩ ⟨a + 1, h⟩

/-- States reachable from the freshly initialized pool of capacity `C`
(app.go:131-134: the channel is filled with `C` tokens, none held). -/
inductive PoolReach (C : Nat) : PoolState → Prop where
  | init : PoolReach C ⟨C, 0⟩
  | step {s t : PoolState} : PoolReach C s → PoolStep s t → PoolReach C t

/-! ## Request routing (`ServeHTTP`, app.go) -/

/-- Modelled from the spec: the diagnostics path constants live in a
repository file absent from the sources. The spec fixes a single diagnostics
URL prefix under which liveness, readiness, metrics and the `/debug/pprof/...`
endpoints (app.go:118-122) are mounted, and app.go:25 names `/debug/ready`;
the prefix is therefore `/debug`. -/
def debugRoot : String := "/debug"

/-- Pool interactions a request performs. -/
inductive PoolEvent where
  | acq
  | rel
  deriving DecidableEq, Repr

/-- Which handler a request ends at. -/
inductive Target where
  | debug
  | app
  deriving DecidableEq, Repr

/-- `ServeHTTP` (app.go:138-153) at the routing level: a request whose path
starts with the diagnostics prefix goes straight to the debug handler and
returns; otherwise, when a pool was allocated (`cc` non-nil) the request
receives a token and sends it back around the wrapped handler, and when no
pool was allocated it reaches the handler with no pool interaction at all. -/
def serve (cc : Option Nat) (path : String) : List PoolEvent × Target :=
  if strStarts path debugRoot then ([], Target.debug)
  else
    match cc with
    | some _ => ([PoolEvent.acq, PoolEvent.rel], Target.app)
    | none => ([], Target.app)

/-! ## Dispatch core (`HandleFunc` / `ServeHTTP`, app.go) with `defer` -/

/-- Events of one dispatched request. -/
inductive DEv where
  | mkContext
  | handlerEnter
  | handlerRet
  | perform
  | acquire
  | release
  deriving DecidableEq, Repr

/-- Whether the request's execution finished normally or is unwinding a
panic. -/
inductive Outcome where
  | ok
  | panicked
  deriving DecidableEq, Repr

/-- Go `defer` semantics: a deferred call runs when the surrounding function
exits, on the normal path and during panic unwinding alike, and the outcome
(normal or panicking) then continues to propagate. -/
def withDefer (d : DEv) : List DEv × Outcome → List DEv × Outcome
  | (tr, o) => (tr ++ [d], o)

/-- The user handler call `fn(c)`: it either returns normally or panics
partway (no `handlerRet` event in that case). -/
def handlerRun (panics : Bool) : List DEv × Outcome :=
  if panics then ([DEv.handlerEnter], Outcome.panicked)
  else ([DEv.handlerEnter, DEv.handlerRet], Outcome.ok)

/-- The route handler `HandleFunc` registers (app.go:82-88): build the
context through the factory, then run the inner closure whose deferred
`c.Perform()` wraps `fn(c)`. -/
def dispatchRoute (panics : Bool) : List DEv × Outcome :=
  let r := withDefer DEv.perform (handlerRun panics)
  (DEv.mkContext :: r.1, r.2)

/-- The gated part of `ServeHTTP` (app.go:145-152): receive a token, defer
its release, and run the dispatch; the deferred release runs also while a
handler panic unwinds. -/
def serveGated (panics : Bool) : List DEv × Outcome :=
  let r := withDefer DEv.release (dispatchRoute panics)
  (DEv.acquire :: r.1, r.2)

/-! ## Shared helper lemmas -/

theorem flattenValue_single (v : String) : flattenValue [v] = Value.str v := rfl

theorem query_key_ne (k : String) : ¬ (k = "query_" ++ k) := by
  intro h
  have hlen := congrArg String.length h
  rw [strLen_append] at hlen
  have h6 : ("query_" : String).length = 6 := rfl
  omega

theorem runReadiness_append (outs : List Bool) (b : Bool) :
    runReadiness (outs ++ [b]) = stepReadiness (runReadiness outs) b := by
  simp [runReadiness, List.foldl_append]

theorem runReadiness_eq_trailing (outs : List Bool) :
    runReadiness outs = (trailingFailures outs : Int) := by
  induction outs using List.reverseRecOn with
  | nil => rfl
  | append_singleton l b ih =>
    rw [runReadiness_append, ih]
    cases b with
    | true =>
      simp [stepReadiness, trailingFailures, List.takeWhile]
    | false =>
      simp [stepReadiness, trailingFailures, List.takeWhile]

/-! ## The claims -/

/-- C1, counterexample. The claim says the normalized map of
`GET /get?aaa=bbb` with empty body holds each query parameter only under its
`query_`-prefixed key, unprefixed keys coming only from body fields. On the
code (pinned by the first `TestFlattenRequest` vector) the map also holds the
bare key `aaa`, so it is not the one-entry map `query_aaa ↦ bbb`. -/
theorem c1_counterexample :
    lookupKV (flattenRequest [] getReq noJson noForm).1 "aaa" = some (Value.str "bbb") ∧
    (flattenRequest [] getReq noJson noForm).1 ≠ [("query_aaa", Value.str "bbb")] := by
  decide

/-- C1, amended: normalizing a request with a single query parameter `k = v`,
no headers and an empty body succeeds and produces exactly the two-entry map
with `v` under both the bare key `k` and the prefixed key `query_k`
(unprefixed keys can also come from query parameters). -/
theorem c1_amended (method p k v : String)
    (pj : String → Except String (List (String × Value)))
    (pf : String → Except String (List (String × List String))) :
    flattenRequest [] { method := method, path := p, query := [(k, [v])],
                        headers := [], body := "" } pj pf =
      ([(k, Value.str v), ("query_" ++ k, Value.str v)], none) := by
  have hne := query_key_ne k
  simp [flattenRequest, insertQueryParams, insertHeaders, flattenValue_single, setKV, hne]

/-- C1, amended, witness at the request of the first `TestFlattenRequest`
vector. -/
theorem c1_amended_witness :
    flattenRequest [] getReq noJson noForm =
      ([("aaa", Value.str "bbb"), ("query_aaa", Value.str "bbb")], none) :=
  c1_amended "GET" "/get" "aaa" "bbb" noJson noForm

/-- C2: along any sequence of readiness evaluations from process start, a
failed evaluation increments the counter by 1 and a successful one resets it
to 0 (so the counter is the length of the trailing run of failures, and is 0
right after any success); the liveness endpoint answers 500 `CASCADED` exactly
when `readinessCascade > 0` and the counter strictly exceeds it, and answers
200 `OK` otherwise — in particular always, for any counter value, when
`readinessCascade ≤ 0`. -/
theorem c2_cascade (cascade : Int) (outs : List Bool) :
    (∀ c : Int, stepReadiness c true = c + 1 ∧ stepReadiness c false = 0) ∧
    runReadiness (outs ++ [false]) = 0 ∧
    runReadiness outs = (trailingFailures outs : Int) ∧
    (livenessBody cascade (runReadiness outs) = (500, "CASCADED") ↔
      cascade > 0 ∧ runReadiness outs > cascade) ∧
    (cascade ≤ 0 → ∀ x : Int, livenessBody cascade x = (200, "OK")) := by
  refine ⟨fun c => ⟨rfl, rfl⟩, ?_, runReadiness_eq_trailing outs, ?_, ?_⟩
  · rw [runReadiness_append]
    rfl
  · by_cases h : cascade > 0 ∧ runReadiness outs > cascade
    · simp [livenessBody, h]
    · simp [livenessBody, h]
  · intro h x
    have hno : ¬(cascade > 0 ∧ x > cascade) := by omega
    simp [livenessBody, hno]

/-- C2, witness: with `readinessCascade = 1`, after the two failed
evaluations `[true, true]` the liveness endpoint answers 500 `CASCADED`;
with `readinessCascade = -3` it answers 200 `OK` at counter 100. -/
theorem c2_cascade_witness :
    livenessBody 1 (runReadiness [true, true]) = (500, "CASCADED") ∧
    livenessBody (-3) 100 = (200, "OK") :=
  ⟨(c2_cascade 1 [true, true]).2.2.2.1.mpr (by decide),
   (c2_cascade (-3) []).2.2.2.2 (by decide) 100⟩

/-- C3: normalizing any request with a non-empty body whose MIME type is
neither `application/json` nor `application/x-www-form-urlencoded` nor
`text/*` fails with `unsupportedContentType`, and the resulting map is
exactly the one produced by the query-parameter and header steps — those
entries are present, nothing is rolled back. -/
theorem c3_unsupported (m : FlatMap) (req : Request)
    (pj : String → Except String (List (String × Value)))
    (pf : String → Except String (List (String × List String)))
    (h1 : req.body ≠ "")
    (h2 : mimeType (getHeader req.headers "Content-Type") ≠ "application/json")
    (h3 : mimeType (getHeader req.headers "Content-Type") ≠ "application/x-www-form-urlencoded")
    (h4 : strStarts (mimeType (getHeader req.headers "Content-Type")) "text/" = false) :
    flattenRequest m req pj pf =
      (insertHeaders (insertQueryParams m req.query) req.headers,
       some (FlattenError.unsupportedContentType
         (mimeType (getHeader req.headers "Content-Type")))) := by
  simp [flattenRequest, h1, h2, h3, h4]

/-- C3, witness at the last `TestFlattenRequest` vector
(`Content-Type: application/x-custom`, body `hello=world`). -/
theorem c3_unsupported_witness :
    flattenRequest [] postCustomReq noJson noForm =
      (insertHeaders (insertQueryParams [] postCustomReq.query) postCustomReq.headers,
       some (FlattenError.unsupportedContentType
         (mimeType (getHeader postCustomReq.headers "Content-Type")))) :=
  c3_unsupported [] postCustomReq noJson noForm (by decide) (by decide) (by decide) (by decide)

/-- C4: flattening a one-element sequence yields the bare scalar itself;
flattening a sequence of length greater than one yields the full ordered
sequence. -/
theorem c4_flattenSlice (α : Type) (v : α) (l : List α) :
    flattenSlice [v] = Flat.one v ∧ (1 < l.length → flattenSlice l = Flat.many l) := by
  refine ⟨rfl, ?_⟩
  intro h
  match l with
  | [] => simp at h
  | [a] => simp at h
  | a :: b :: t => rfl

/-- C4, witness at the `TestFlattenSlice` vectors. -/
theorem c4_flattenSlice_witness :
    flattenSlice [(1 : Int)] = Flat.one 1 ∧ flattenSlice [(1 : Int), 2] = Flat.many [1, 2] :=
  ⟨(c4_flattenSlice Int 1 [1, 2]).1, (c4_flattenSlice Int 1 [1, 2]).2 (by decide)⟩

/-- C5: `executeCheckers` marks `failed` exactly when some checker returned a
non-nil error; its report is the `"\n"`-join of one `name: OK` /
`name: <error text>` line per registered checker, is `OK` for the empty
registry, and is never empty. (The function returns only the report and the
flag — a checker error is never a call error.) -/
theorem c5_executeCheckers (cs : List CheckerRun) :
    ((executeCheckers cs).2 = true ↔ ∃ kv ∈ cs, kv.2.isSome) ∧
    (executeCheckers cs).1 = (if cs.isEmpty then "OK" else joinLines (cs.map lineOf)) ∧
    (executeCheckers cs).1 ≠ "" := by
  have h := executeCheckers_eq cs
  refine ⟨?_, ?_, ?_⟩
  · rw [h]
    simp [List.any_eq_true]
  · rw [h]
  · rw [h]
    cases cs with
    | nil => simp
    | cons kv t =>
      have hjoin := joinLines_map_cons kv t
      have hpos : 0 < (lineOf kv ++ joinCont t).length := by
        have := lineOf_len_pos kv
        rw [strLen_append]
        omega
      simp only [List.isEmpty_cons, if_neg, List.map_cons, Bool.false_eq_true,
        ite_false, hjoin]
      exact strNe_empty_of_len_pos hpos

/-- C5, witness: the empty registry reports `OK` without failure, and a
registry whose single checker fails is marked failed. -/
theorem c5_executeCheckers_witness :
    (executeCheckers []).1 = "OK" ∧
    ((executeCheckers [("db", some "down")]).2 = true) := by
  refine ⟨by simpa using (c5_executeCheckers []).2.1, ?_⟩
  exact (c5_executeCheckers [("db", some "down")]).1.mpr ⟨("db", some "down"), by simp, by simp⟩

/-- C6: in a pool of capacity `C > 0`, every state reachable from the
freshly filled pool keeps exactly `C` tokens in circulation
(`available + held = C`), so at most `C` gated handler invocations hold a
token — are concurrently active — at any instant. -/
theorem c6_poolInvariant (C : Nat) (s : PoolState) (_hC : 0 < C)
    (hreach : PoolReach C s) :
    s.available + s.held = C ∧ s.held ≤ C := by
  have key : ∀ t : PoolState, PoolReach C t → t.available + t.held = C := by
    intro t ht
    induction ht with
    | init => simp
    | step hprev hstep ih =>
      cases hstep with
      | acquire a h =>
        dsimp only at ih ⊢
        omega
      | release a h =>
        dsimp only at ih ⊢
        omega
  have hsum := key s hreach
  exact ⟨hsum, by omega⟩

/-- C6, witness: capacity 2, state after one `acquire`. -/
theorem c6_poolInvariant_witness :
    (PoolState.mk 1 1).available + (PoolState.mk 1 1).held = 2 ∧ (PoolState.mk 1 1).held ≤ 2 :=
  c6_poolInvariant 2 ⟨1, 1⟩ (by decide) (PoolReach.step PoolReach.init (PoolStep.acquire 1 0))

/-- C7: `initCC` allocates no pool exactly when the configured concurrency is
non-positive; with no pool every request's pool-event trace is empty (no
gating at all); and with no options `New` keeps the defaults
`concurrency = 128`, `readinessCascade = 5`. -/
theorem c7_options :
    (∀ o : AppOptions, initCC o = none ↔ o.concurrency ≤ 0) ∧
    (∀ path : String, (serve none path).1 = []) ∧
    newOptions [] = defaultOptions ∧
    defaultOptions.concurrency = 128 ∧ defaultOptions.readinessCascade = 5 := by
  refine ⟨?_, ?_, rfl, rfl, rfl⟩
  · intro o
    by_cases h : o.concurrency > 0 <;> simp [initCC, h] <;> omega

  · intro path
    by_cases h : strStarts path debugRoot = true <;> simp [serve, h]

/-- C7, witness: concurrency 0 allocates no pool, and a request to `/get`
with no pool performs no pool events. -/
theorem c7_options_witness :
    initCC { concurrency := 0, readinessCascade := 5 } = none ∧
    (serve none "/get").1 = [] :=
  ⟨(c7_options.1 { concurrency := 0, readinessCascade := 5 }).mpr (by decide),
   c7_options.2.1 "/get"⟩

/-- C8: a request whose path starts with the diagnostics prefix is dispatched
to the debug handler with an empty pool-event trace — it never acquires,
releases, or waits for a permit — whether or not a pool exists (and hence
regardless of how many permits are held). -/
theorem c8_debugBypass (cc : Option Nat) (path : String)
    (h : strStarts path debugRoot = true) :
    serve cc path = ([], Target.debug) := by
  simp [serve, h]

/-- C8, witness: a liveness probe with a fully-allocated pool configured. -/
theorem c8_debugBypass_witness :
    serve (some 128) "/debug/alive" = ([], Target.debug) :=
  c8_debugBypass (some 128) "/debug/alive" (by decide)

/-- C9: for either handler outcome (normal return or panic), a dispatched
request builds exactly one context, enters the handler exactly once, runs
`Perform` exactly once and as its last event — after the handler — and in the
gated path the number of `acquire` events equals the number of `release`
events, so a panic leaks no permit. -/
theorem c9_dispatchFinalize (panics : Bool) :
    (dispatchRoute panics).1.count DEv.perform = 1 ∧
    (dispatchRoute panics).1.count DEv.mkContext = 1 ∧
    (dispatchRoute panics).1.count DEv.handlerEnter = 1 ∧
    (dispatchRoute panics).1.head? = some DEv.mkContext ∧
    (dispatchRoute panics).1.getLast? = some DEv.perform ∧
    (serveGated panics).1.count DEv.acquire = (serveGated panics).1.count DEv.release ∧
    (serveGated panics).2 = (if panics then Outcome.panicked else Outcome.ok) := by
  cases panics <;> decide

/-- C9, witness: a panicking handler still performs `Perform` exactly once,
last, and releases its permit. -/
theorem c9_dispatchFinalize_witness :
    (dispatchRoute true).1.count DEv.perform = 1 ∧
    (dispatchRoute true).1.getLast? = some DEv.perform ∧
    (serveGated true).1.count DEv.acquire = (serveGated true).1.count DEv.release :=
  ⟨(c9_dispatchFinalize true).1, (c9_dispatchFinalize true).2.2.2.2.1,
   (c9_dispatchFinalize true).2.2.2.2.2.1⟩

/-- C10: a liveness probe returns the counter unchanged (the handler only
loads it), and along any interleaving of liveness and readiness probes the
final counter equals the one produced by the readiness probes alone — the
counter is mutated only by readiness evaluations. -/
theorem c10_livenessFrame (cascade c : Int) (ps : List Probe) (n : Nat) :
    (handleAlive cascade c).1 = c ∧
    runProbes cascade c ps = runProbes cascade c (ps.filter isReady) ∧
    runProbes cascade c (List.replicate n Probe.alive) = c := by
  refine ⟨rfl, ?_, ?_⟩
  · induction ps generalizing c with
    | nil => rfl
    | cons p t ih =>
      cases p with
      | alive =>
        simpa [runProbes, List.filter, isReady, probeStep, handleAlive] using ih c
      | ready cs =>
        simp only [runProbes, List.foldl_cons, List.filter, isReady]
        exact ih _
  · induction n generalizing c with
    | zero => rfl
    | succ k ih =>
      simpa [List.replicate_succ, runProbes, probeStep, handleAlive] using ih c

/-- C10, witness: three liveness probes interleaved around one failed
readiness probe leave the counter as the readiness probe alone would. -/
theorem c10_livenessFrame_witness :
    runProbes 5 0 [Probe.alive, Probe.ready [("db", some "down")], Probe.alive] =
      runProbes 5 0
        ([Probe.alive, Probe.ready [("db", some "down")], Probe.alive].filter isReady) :=
  (c10_livenessFrame 5 0 [Probe.alive, Probe.ready [("db", some "down")], Probe.alive] 3).2.1

end Summer
